import Mathlib

/-!
Verification development for the comprehendase pipeline.

Python strings are modelled as lists of code points (`PyStr := List Nat`),
so that Python's `lower`, `strip`, `isupper`, slicing and regex tests can be
embedded as executable functions and reasoned about by induction.  Each
definition below mirrors one function (or inline block) of the source files
`ontology.py`, `extract_text.py` and `server.py`; the source name is kept
wherever Lean allows it.
-/

/-- A Python string, as its sequence of Unicode code points. -/
abbrev PyStr := List Nat

/-- Embed a Lean string literal as a `PyStr`. -/
def str (s : String) : PyStr := s.toList.map Char.toNat

/-- ASCII uppercase letter test (regex class A-Z). -/
def isUpperB (c : Nat) : Bool := decide (65 ≤ c ∧ c ≤ 90)

/-- ASCII lowercase letter test (regex class a-z). -/
def isLowerB (c : Nat) : Bool := decide (97 ≤ c ∧ c ≤ 122)

/-- ASCII letter test (regex class A-Za-z). -/
def isAlphaB (c : Nat) : Bool := isUpperB c || isLowerB c

/-- ASCII digit test (regex class 0-9). -/
def isDigitB (c : Nat) : Bool := decide (48 ≤ c ∧ c ≤ 57)

/-- Python `str.strip()` whitespace class (ASCII part). -/
def isSpaceB (c : Nat) : Bool :=
  c == 32 || c == 9 || c == 10 || c == 13 || c == 11 || c == 12

/-- A cased character (ASCII model), as used by Python `isupper`/`islower`. -/
def isCasedB (c : Nat) : Bool := isUpperB c || isLowerB c

/-- Python `str.lower()` on one code point (ASCII model). -/
def pyLower (c : Nat) : Nat := if 65 ≤ c ∧ c ≤ 90 then c + 32 else c

/-- Python `str.isupper()`: at least one cased character, all cased ones uppercase. -/
def pyIsUpper (l : PyStr) : Bool :=
  l.any isCasedB && l.all (fun c => !isCasedB c || isUpperB c)

/-- Python `str.islower()`: at least one cased character, all cased ones lowercase. -/
def pyIsLower (l : PyStr) : Bool :=
  l.any isCasedB && l.all (fun c => !isCasedB c || isLowerB c)

/-- Python `str.isdigit()` (ASCII model): nonempty and all digits. -/
def pyIsDigit (l : PyStr) : Bool := !l.isEmpty && l.all isDigitB

/-- Python `str.isalpha()` (ASCII model): nonempty and all letters. -/
def pyIsAlpha (l : PyStr) : Bool := !l.isEmpty && l.all isAlphaB

/-- Python `str.strip()`: drop whitespace from both ends. -/
def pyStrip (l : PyStr) : PyStr :=
  List.rdropWhile isSpaceB (l.dropWhile isSpaceB)

/-- Python `str.strip(chars)`: drop the given characters from both ends. -/
def pyStripChars (cs : List Nat) (l : PyStr) : PyStr :=
  List.rdropWhile (fun c => cs.contains c) (l.dropWhile (fun c => cs.contains c))

/-- Python `needle in hay` for strings: contiguous-substring test. -/
def strContains (hay needle : PyStr) : Bool :=
  needle.isPrefixOf hay ||
    match hay with
    | [] => false
    | _ :: t => strContains t needle

/-- Python `str.split()` (split on whitespace runs, dropping empty parts). -/
def splitWsAux : PyStr → PyStr → List PyStr
  | [], cur => if cur.isEmpty then [] else [cur.reverse]
  | c :: rest, cur =>
    if isSpaceB c then
      if cur.isEmpty then splitWsAux rest [] else cur.reverse :: splitWsAux rest []
    else splitWsAux rest (c :: cur)

/-- Python `str.split()` entry point. -/
def splitWs (l : PyStr) : List PyStr := splitWsAux l []

/-- Split on a single space character, keeping empty parts (used to decide the
anchored regex with one literal blank between two groups). -/
def splitOnSpace : PyStr → List PyStr
  | [] => [[]]
  | c :: rest =>
    if c == 32 then [] :: splitOnSpace rest
    else
      match splitOnSpace rest with
      | [] => [[c]]
      | p :: ps => (c :: p) :: ps

-- ---------------------------------------------------------
-- ontology.py : word lists (COMMON WORD / PATTERN FILTERS)
-- ---------------------------------------------------------

/-- ontology.py COMMON_WORDS. -/
def COMMON_WORDS : List PyStr :=
  (["the","and","for","with","from","that","this","were","have","been",
    "in","on","of","to","as","by","is","are","be","or","an","at","it",
    "we","was","using","used","use","our","their","these","those",
    "its","they","them","he","she","his","her","you","your","i",
    "into","onto","within","between","through","over","under","out",
    "up","down","off","than","then","also","such","each","both","via",
    "per","among","amid","despite","during","before","after","because"]).map str

/-- ontology.py SCI_PREFIXES (leading fragments of scientific words). -/
def SCI_PREFS : List PyStr :=
  (["bio", "micro", "immuno", "neuro", "cyto", "geno", "patho",
    "chemo", "thermo", "myco", "entomo"]).map str

/-- ontology.py SCI_SUFFIXES (trailing fragments of scientific words). -/
def SCI_SUFFS : List PyStr :=
  (["ase","itis","osis","emia","phage","phyte","coccus","viridae","aceae","ales",
    "bacteria","mycetes","mycotina","phyta","phyceae","mycota","archaea"]).map str

/-- ontology.py ALLOWED_LOWER. -/
def ALLOWED_LOWER : List PyStr :=
  (["biofilm", "larvae", "pathogen", "pathogenic", "lipoprotein", "lipoproteins",
    "adhesion", "invasion", "dissemination", "strain", "strains",
    "protein", "proteins", "microorganism", "microorganisms", "enzyme",
    "bacteria", "fungi", "colony", "colonies",
    "pneumonia", "mastitis", "arthritis", "otitis", "media"]).map str

/-- ontology.py BANNED_TOKENS. -/
def BANNED_TOKENS : List PyStr :=
  (["to","was","were","size","data","finally","software",
    "accession","genbank","issue","volume","license",
    "biosample","bioproject","biosystems","samn","cp0"]).map str

/-- ontology.py BIO_GENOME_CONTEXT. -/
def BIO_GENOME_CONTEXT : List PyStr :=
  (["replication","stability","annotation","assembly"]).map str

/-- Does any entry of `ps` start the string `l`? (Python `l.startswith(tuple)`.) -/
def startswithAny (ps : List PyStr) (l : PyStr) : Bool :=
  ps.any (fun p => p.isPrefixOf l)

/-- Does any entry of `ps` end the string `l`? (Python `l.endswith(tuple)`.) -/
def endswithAny (ps : List PyStr) (l : PyStr) : Bool :=
  ps.any (fun p => p.isSuffixOf l)

-- ---------------------------------------------------------
-- ontology.py : AUTHOR / CITATION DETECTION, BASIC HELPERS
-- ---------------------------------------------------------

/-- The anchored regex for a capitalized word: one uppercase letter followed by
one or more lowercase letters. -/
def capWordB : PyStr → Bool
  | [] => false
  | c :: rest => isUpperB c && !rest.isEmpty && rest.all isLowerB

/-- ontology.py looks_like_author_name: a capitalized word, optionally followed
by a trailing comma (code point 44). -/
def looks_like_author_name (word : PyStr) : Bool :=
  capWordB word ||
    match word.getLast? with
    | some 44 => capWordB word.dropLast
    | _ => false

/-- The anchored two-capitalized-words regex used by phrase_is_citation:
exactly one blank separating two capitalized words. -/
def twoCapWordsB (l : PyStr) : Bool :=
  match splitOnSpace l with
  | [a, b] => capWordB a && capWordB b
  | _ => false

/-- The anchored capitalized-word-comma-year regex used by phrase_is_citation:
a capitalized word, a comma, a blank, then exactly four digits. -/
def capWordYearB (l : PyStr) : Bool :=
  match l.reverse with
  | d1 :: d2 :: d3 :: d4 :: s :: com :: rest =>
    isDigitB d1 && isDigitB d2 && isDigitB d3 && isDigitB d4 &&
      s == 32 && com == 44 && capWordB rest.reverse
  | _ => false

/-- ontology.py phrase_is_citation. -/
def phrase_is_citation (phrase : PyStr) : Bool :=
  strContains (phrase.map pyLower) (str "et al") ||
    twoCapWordsB phrase || capWordYearB phrase

/-- ontology.py is_acronym: all-uppercase of length at least 3. -/
def is_acronym (word : PyStr) : Bool :=
  pyIsUpper word && decide (3 ≤ word.length)

/-- Punctuation stripped from token ends by clean_token: period, comma,
semicolon, colon, parentheses, square and curly brackets. -/
def PUNCT_STRIP : List Nat := [46, 44, 59, 58, 40, 41, 91, 93, 123, 125]

/-- Invisible characters removed everywhere by clean_token: zero-width space,
soft hyphen, non-breaking hyphen. -/
def INVISIBLE_CHARS : List Nat := [8203, 173, 8209]

/-- ontology.py clean_token. -/
def clean_token (token : PyStr) : PyStr :=
  (pyStripChars PUNCT_STRIP (pyStrip token)).filter
    (fun c => !(INVISIBLE_CHARS.contains c))

/-- ontology.py words_from_phrase_text. -/
def words_from_phrase_text (phrase_text : PyStr) : List PyStr :=
  ((splitWs phrase_text).map clean_token).filter (fun t => !t.isEmpty)

-- ---------------------------------------------------------
-- ontology.py : WORD-LEVEL CANDIDATE FILTER
-- ---------------------------------------------------------

/-- A character kept by the cleaning regex of is_candidate_single_word:
letter, digit or hyphen. -/
def isWordCharB (c : Nat) : Bool := isAlphaB c || isDigitB c || c == 45

/-- The gene-like anchored regex: two to six letters, then optional digits,
then optional letters. -/
def geneLikeB (l : PyStr) : Bool :=
  let a := l.takeWhile isAlphaB
  let r1 := l.dropWhile isAlphaB
  let d := r1.takeWhile isDigitB
  let r2 := r1.dropWhile isDigitB
  decide (2 ≤ a.length) && (decide (a.length ≤ 6) || (d.isEmpty && r2.isEmpty)) &&
    r2.all isAlphaB

/-- The strain-like anchored regex: one to four uppercase letters, one or more
digits, then optional alphanumerics. -/
def strainLikeB (l : PyStr) : Bool :=
  let u := l.takeWhile isUpperB
  let r1 := l.dropWhile isUpperB
  let d := r1.takeWhile isDigitB
  let r2 := r1.dropWhile isDigitB
  decide (1 ≤ u.length) && decide (u.length ≤ 4) && decide (1 ≤ d.length) &&
    r2.all (fun c => isAlphaB c || isDigitB c)

/-- The broader-scientific-name anchored regex: an uppercase letter followed by
one or more letters of either case. -/
def broadSciB : PyStr → Bool
  | [] => false
  | c :: rest => isUpperB c && !rest.isEmpty && rest.all isAlphaB

/-- The genome words explicitly allowed by is_candidate_single_word. -/
def GENOME_WORDS : List PyStr := (["genome","genomic","genomics"]).map str

/-- ontology.py is_candidate_single_word, branch for branch. -/
def is_candidate_single_word (raw_word : PyStr) : Bool :=
  if raw_word.isEmpty then false else
  let word_clean := raw_word.filter isWordCharB
  if word_clean.isEmpty then false else
  if word_clean.length < 3 then false else
  let lower := word_clean.map pyLower
  if COMMON_WORDS.contains lower then false else
  if BANNED_TOKENS.contains lower then false else
  if pyIsDigit word_clean then false else
  if looks_like_author_name word_clean then false else
  if is_acronym word_clean then false else
  if GENOME_WORDS.contains lower then true else
  if pyIsLower word_clean then
    ALLOWED_LOWER.contains lower || startswithAny SCI_PREFS lower ||
      endswithAny SCI_SUFFS lower
  else
  if geneLikeB word_clean then true else
  if strainLikeB word_clean then true else
  if (str "aceae").isSuffixOf lower then true else
  if (str "ales").isSuffixOf lower then true else
  if capWordB word_clean then true else
  if broadSciB word_clean then true else
  if (str "protein").isSuffixOf lower || (str "proteins").isSuffixOf lower then true else
  if startswithAny SCI_PREFS lower then true else
  if endswithAny SCI_SUFFS lower then true else
  false


-- ---------------------------------------------------------
-- ontology.py : PHRASE-LEVEL FILTERING / N-GRAMS
-- ---------------------------------------------------------

/-- ontology.py PROCEDURAL_PATTERNS. -/
def PROCEDURAL_PATTERNS : List PyStr :=
  (["were incubated", "cultures were", "incubated at",
    "listed as", "co-first", "to isolate",
    "important pathogen", "serious pneumonia", "an important",
    "the genome size", "genome size of", "gc content",
    "complete genome", "genome sequence", "sequence of",
    "international license", "volume", "issue", "e00001",
    "accession", "genbank", "samn", "cp0", "biosample",
    "bioproject", "biosystems"]).map str

/-- ontology.py phrase_is_procedural_or_metadata. -/
def phrase_is_procedural_or_metadata (phrase : PyStr) : Bool :=
  PROCEDURAL_PATTERNS.any (fun pat => strContains (phrase.map pyLower) pat)

/-- ontology.py is_species_like. -/
def is_species_like (words : List PyStr) : Bool :=
  match words with
  | w1 :: w2 :: _ =>
    pyIsAlpha w1 && pyIsAlpha w2 &&
      decide (3 ≤ w1.length) && decide (3 ≤ w2.length) &&
      !(COMMON_WORDS.contains (w1.map pyLower)) &&
      !(COMMON_WORDS.contains (w2.map pyLower))
  | _ => false

/-- ontology.py is_candidate_phrase_full, branch for branch. -/
def is_candidate_phrase_full (phrase_text : PyStr) : Bool :=
  if phrase_text.isEmpty then false else
  if phrase_is_citation phrase_text then false else
  if phrase_is_procedural_or_metadata phrase_text then false else
  let words := words_from_phrase_text phrase_text
  if words.length < 2 then false else
  if words.all looks_like_author_name then false else
  if words.any (fun w => BANNED_TOKENS.contains (w.map pyLower)) then false else
  if is_species_like words then true else
  let lower := phrase_text.map pyLower
  if strContains lower (str "strain") || strContains lower (str "serotype") ||
      strContains lower (str "subspecies") then true else
  if (words.headD []).map pyLower == str "genome" then
    decide (2 ≤ words.length) &&
      BIO_GENOME_CONTEXT.contains ((words.getD 1 []).map pyLower)
  else
    words.any (fun w =>
      let wc := w.filter isWordCharB
      decide (3 ≤ wc.length) && !(COMMON_WORDS.contains (wc.map pyLower)) &&
        is_candidate_single_word wc)

/-- The n-grams of one window size n (joined with a blank), as produced by the
inner loop of ontology.py generate_ngrams. -/
def ngramsAt (tokens : List PyStr) (n : Nat) : List PyStr :=
  if tokens.length < n then []
  else (List.range (tokens.length - n + 1)).map
    (fun i => List.intercalate (str " ") ((tokens.drop i).take n))

/-- ontology.py generate_ngrams. -/
def generate_ngrams (tokens : List PyStr) (mn mx : Nat) : List PyStr :=
  ((List.range' mn (mx + 1 - mn)).map (ngramsAt tokens)).flatten

/-- The filter applied to each n-gram inside phrase_ngrams_for_ontology
(the loop body that decides whether the n-gram is appended to results). -/
def ngramPassB (ng : PyStr) : Bool :=
  if phrase_is_procedural_or_metadata ng then false else
  if phrase_is_citation ng then false else
  let words := words_from_phrase_text ng
  if words.any (fun w => BANNED_TOKENS.contains (w.map pyLower)) then false else
  if (words.headD []).map pyLower == str "genome" then
    decide (2 ≤ words.length) &&
      BIO_GENOME_CONTEXT.contains ((words.getD 1 []).map pyLower)
  else
    words.all (fun w =>
      decide (3 ≤ (w.filter isWordCharB).length) &&
        (COMMON_WORDS.contains (w.map pyLower) ||
          is_candidate_single_word (w.filter isWordCharB)))

/-- ontology.py phrase_ngrams_for_ontology. -/
def phrase_ngrams_for_ontology (phrase_text : PyStr) : List PyStr :=
  let headPart := if is_candidate_phrase_full phrase_text then [phrase_text] else []
  let tokens := words_from_phrase_text phrase_text
  if tokens.length < 2 then headPart
  else headPart ++ (generate_ngrams tokens 2 3).filter ngramPassB

-- ---------------------------------------------------------
-- ontology.py : OLS4 LOOKUP (Improved Ranking)
-- ---------------------------------------------------------

/-- ontology.py BIO_ONTOLOGY_PREFIXES (the biological-ontology allow-list). -/
def BIO_ONTOLOGY_PFXS : List PyStr :=
  (["go", "so", "pr", "chebi", "ncbitaxon", "envo", "obi", "eco"]).map str

/-- ontology.py normalize_term: lowercase, strip, fold the plural endings of
protein and genome words by dropping the final letter.  `pyStrip
(term.map pyLower)` is the local variable t of the source; the slice t[:-1]
is `dropLast`. -/
def normalize_term (term : PyStr) : PyStr :=
  if (str "proteins").isSuffixOf (pyStrip (term.map pyLower)) then
    (pyStrip (term.map pyLower)).dropLast
  else if (str "genomes").isSuffixOf (pyStrip (term.map pyLower)) then
    (pyStrip (term.map pyLower)).dropLast
  else pyStrip (term.map pyLower)

/-- One OLS4 response document, after JSON parsing: the four fields read by
lookup_term_ols4, with the dictionary defaults already applied (missing label
is the empty string, missing description list is empty; iri may be absent). -/
structure OLSDoc where
  label : PyStr
  description : List PyStr
  iri : Option PyStr
  ontology_pfx : PyStr
deriving DecidableEq

/-- The result dictionary built by lookup_term_ols4 (and stored by
extract_ontology_terms).  It has no source key: `source` is what Python
`hit.get("source")` observes, always `none` for these hits. -/
structure Hit where
  label : PyStr
  definition : PyStr
  iri : Option PyStr
  source : Option PyStr
deriving DecidableEq

/-- The definition string computed from a document: first description entry
stripped, or the empty string when the description list is empty. -/
def docDef (d : OLSDoc) : PyStr :=
  match d.description with
  | [] => []
  | x :: _ => pyStrip x

/-- The dictionary returned for a chosen document. -/
def mkHit (d : OLSDoc) : Hit := ⟨d.label, docDef d, d.iri, none⟩

/-- Is the document from an ontology in the allow-list? -/
def isBioDoc (d : OLSDoc) : Bool :=
  BIO_ONTOLOGY_PFXS.contains (d.ontology_pfx.map pyLower)

/-- The Python sort key used in stages 2 and 3: allow-listed ontologies first,
then shorter labels. -/
def docKey (d : OLSDoc) : Nat × Nat :=
  (if isBioDoc d then 0 else 1, d.label.length)

/-- Non-strict lexicographic order on sort keys. -/
def keyLe (p q : Nat × Nat) : Bool :=
  decide (p.1 < q.1 ∨ (p.1 = q.1 ∧ p.2 ≤ q.2))

/-- The first document attaining the minimal sort key: this models Python's
stable `list.sort(key=...)` followed by taking element 0. -/
def bestOf : List OLSDoc → Option OLSDoc
  | [] => none
  | d :: ds =>
    match bestOf ds with
    | none => some d
    | some b => some (if keyLe (docKey d) (docKey b) then d else b)

/-- Stage-1 test: truthy label, exact case-insensitive label match, truthy
definition. -/
def exactMatchB (tl : PyStr) (d : OLSDoc) : Bool :=
  !d.label.isEmpty && (d.label.map pyLower == tl) && !(docDef d).isEmpty

/-- Stage-2 test: truthy label whose lowercase form starts with the term. -/
def startsWithTermB (tl : PyStr) (d : OLSDoc) : Bool :=
  !d.label.isEmpty && tl.isPrefixOf (d.label.map pyLower)

/-- Stage-3 test: truthy label whose lowercase form contains the term. -/
def containsTermB (tl : PyStr) (d : OLSDoc) : Bool :=
  !d.label.isEmpty && strContains (d.label.map pyLower) tl

/-- Stage 3 of lookup_term_ols4: best label-contains-term document, accepted
only with a truthy definition. -/
def stage3of (docs : List OLSDoc) (tl : PyStr) : Option Hit :=
  match bestOf (docs.filter (containsTermB tl)) with
  | none => none
  | some b => if (docDef b).isEmpty then none else some (mkHit b)

/-- Stages 1 to 3 of lookup_term_ols4 on a non-empty docs list: first
document with an exact lowercase label match and truthy definition, else the
best label-starts-with-term document (falling through to stage 3 when its
definition is empty), else stage 3. -/
def lookupStages (docs : List OLSDoc) (term_lower : PyStr) : Option Hit :=
  match docs.find? (exactMatchB term_lower) with
  | some d => some (mkHit d)
  | none =>
    match bestOf (docs.filter (startsWithTermB term_lower)) with
    | none => stage3of docs term_lower
    | some b =>
      if (docDef b).isEmpty then stage3of docs term_lower
      else some (mkHit b)

/-- ontology.py lookup_term_ols4.  The network interaction is abstracted into
`fetch`: `none` models any request error (timeout, non-2xx status, malformed
payload, all caught by the bare except), and `some docs` models a parsed
response whose docs list is `docs`.  `term_lower` is the normalized term
lowered once more, exactly as in the source. -/
def lookup_term_ols4 (fetch : PyStr → Option (List OLSDoc)) (term : PyStr) :
    Option Hit :=
  match fetch (normalize_term term) with
  | none => none
  | some docs =>
    if docs.isEmpty then none
    else lookupStages docs ((normalize_term term).map pyLower)

-- ---------------------------------------------------------
-- ontology.py : MAIN ENTRYPOINT (extract_ontology_terms)
-- ---------------------------------------------------------

/-- One page record as read by extract_ontology_terms: the text fields of its
word spans and of its phrase spans (the only data the function accesses). -/
structure PageData where
  words : List PyStr
  phrases : List PyStr
deriving DecidableEq

/-- The word-level candidates contributed by one page: non-empty texts passing
is_candidate_single_word, normalized, kept when of length at least 3. -/
def page_word_candidates (p : PageData) : List PyStr :=
  p.words.filterMap (fun raw =>
    if !raw.isEmpty && is_candidate_single_word raw then
      let n := normalize_term raw
      if 3 ≤ n.length then some n else none
    else none)

/-- The phrase-level candidates contributed by one page: every string produced
by phrase_ngrams_for_ontology on a non-empty phrase text, normalized, kept when
of length at least 3. -/
def page_phrase_candidates (p : PageData) : List PyStr :=
  (p.phrases.map (fun ph =>
    if ph.isEmpty then []
    else (phrase_ngrams_for_ontology ph).filterMap (fun t =>
      let n := normalize_term t
      if 3 ≤ n.length then some n else none))).flatten

/-- Lexicographic strict order on code-point strings (Python string `<`). -/
def strLt : PyStr → PyStr → Bool
  | [], [] => false
  | [], _ :: _ => true
  | _ :: _, [] => false
  | x :: xs, y :: ys => if x < y then true else if y < x then false else strLt xs ys

/-- Insert into a sorted duplicate-free list, keeping it sorted and
duplicate-free. -/
def insSorted (x : PyStr) : List PyStr → List PyStr
  | [] => [x]
  | y :: ys =>
    if x = y then y :: ys
    else if strLt x y then x :: y :: ys
    else y :: insSorted x ys

/-- `sorted(set(l))`: the distinct elements of `l` in ascending order. -/
def sortedDedup (l : List PyStr) : List PyStr :=
  l.foldl (fun acc x => insSorted x acc) []

/-- ontology.py MAX_TERMS_PER_DOCUMENT. -/
def MAX_TERMS_PER_DOCUMENT : Nat := 1000

/-- The candidate set of extract_ontology_terms, deduplicated, sorted, and
capped at MAX_TERMS_PER_DOCUMENT entries (`islice` of the sorted set). -/
def capped_candidates (ps : List PageData) : List PyStr :=
  let cs := sortedDedup
    ((ps.map (fun p => page_word_candidates p ++ page_phrase_candidates p)).flatten)
  if MAX_TERMS_PER_DOCUMENT < cs.length then cs.take MAX_TERMS_PER_DOCUMENT else cs

/-- ontology.py extract_ontology_terms: query lookup_term_ols4 for every
candidate term in sorted order and record exactly the successful hits, keyed by
the normalized term.  The returned association list models the found_terms
dictionary (its keys are distinct by construction). -/
def extract_ontology_terms (fetch : PyStr → Option (List OLSDoc))
    (ps : List PageData) : List (PyStr × Hit) :=
  (capped_candidates ps).filterMap
    (fun t => (lookup_term_ols4 fetch t).map (fun h => (t, h)))

-- ---------------------------------------------------------
-- extract_text.py : hyphen merging of sorted word spans
-- ---------------------------------------------------------

/-- A word span as built by extract_pdf_layout.  The merger reads and rewrites
only `text`; the geometric fields and the page index are carried through
unchanged, so their numeric type is immaterial here and they are embedded as
integers. -/
structure Span where
  text : PyStr
  x : Int
  y : Int
  width : Int
  height : Int
  page : Nat
deriving DecidableEq

/-- The merged span: the first span with its trailing hyphens stripped and the
second span's text appended (`current["text"].rstrip("-") + nxt["text"]`). -/
def mergedSpan (a b : Span) : Span :=
  ⟨List.rdropWhile (fun c => c == 45) a.text ++ b.text,
    a.x, a.y, a.width, a.height, a.page⟩

/-- The hyphen-merge loop of extract_pdf_layout (the single left-to-right pass
over the reading-order-sorted spans of one page): when the current span's text
ends with a hyphen and a next span exists, emit the merged span and skip both;
otherwise emit the current span and advance by one. -/
def merge_hyphens : List Span → List Span
  | [] => []
  | [w] => [w]
  | a :: b :: rest =>
    if (str "-").isSuffixOf a.text then mergedSpan a b :: merge_hyphens rest
    else a :: merge_hyphens (b :: rest)

-- ---------------------------------------------------------
-- server.py : attachment of definitions to word spans
-- ---------------------------------------------------------

/-- A word span at attachment time: its text plus the two optional fields the
attachment stage may add.  `none` models the absence of the dictionary key. -/
structure AttachSpan where
  text : PyStr
  definition : Option PyStr
  source : Option PyStr
deriving DecidableEq

/-- The source values accepted by the word loop of server.py. -/
def WORD_SOURCES : List PyStr := [str "word_definition", str "ontology_word"]

/-- The body of the word loop of server.py extract: look the stripped text up
in the unified hits, read the hit's source key, and only when that source is
word_definition or ontology_word and the definition is truthy, write the
definition and source onto the span. -/
def attach_word (hits : List (PyStr × Hit)) (w : AttachSpan) : AttachSpan :=
  match hits.lookup (pyStrip w.text) with
  | none => w
  | some hit =>
    match hit.source with
    | none => w
    | some s =>
      if WORD_SOURCES.contains s then
        if hit.definition.isEmpty then w
        else ⟨w.text, some hit.definition, some s⟩
      else w

/-- The word loop of server.py extract over all word spans. -/
def attach_words (hits : List (PyStr × Hit)) (ws : List AttachSpan) :
    List AttachSpan :=
  ws.map (attach_word hits)

-- ---------------------------------------------------------
-- Helper lemmas about the Python string primitives
-- ---------------------------------------------------------

theorem pyLower_pyLower (c : Nat) : pyLower (pyLower c) = pyLower c := by
  unfold pyLower
  split
  · rw [if_neg (by omega)]
  · rfl

theorem head?_dropWhile_false (p : Nat → Bool) (l : PyStr) :
    ∀ c, (l.dropWhile p).head? = some c → p c = false := by
  induction l with
  | nil => intro c hc; simp [List.dropWhile] at hc
  | cons a t ih =>
    intro c hc
    by_cases hp : p a = true
    · rw [List.dropWhile_cons, if_pos hp] at hc
      exact ih c hc
    · rw [List.dropWhile_cons, if_neg hp] at hc
      simp only [List.head?_cons, Option.some.injEq] at hc
      rw [← hc]
      exact Bool.eq_false_iff.mpr hp

theorem dropWhile_fix_of_head (p : Nat → Bool) (l : PyStr)
    (h : ∀ c, l.head? = some c → p c = false) : l.dropWhile p = l := by
  cases l with
  | nil => rfl
  | cons a t =>
    rw [List.dropWhile_cons, if_neg]
    rw [h a rfl]
    simp

theorem head?_rdropWhile_of_ne (p : Nat → Bool) (l : PyStr)
    (h : List.rdropWhile p l ≠ []) :
    (List.rdropWhile p l).head? = l.head? := by
  cases hr : List.rdropWhile p l with
  | nil => exact absurd hr h
  | cons a s =>
    obtain ⟨t, ht⟩ := List.rdropWhile_prefix p l
    rw [hr] at ht
    rw [← ht]
    simp

theorem dropWhile_pyStrip (l : PyStr) :
    (pyStrip l).dropWhile isSpaceB = pyStrip l := by
  apply dropWhile_fix_of_head
  intro c hc
  have hne : List.rdropWhile isSpaceB (l.dropWhile isSpaceB) ≠ [] := by
    intro he
    unfold pyStrip at hc
    rw [he] at hc
    simp at hc
  unfold pyStrip at hc
  rw [head?_rdropWhile_of_ne _ _ hne] at hc
  exact head?_dropWhile_false isSpaceB l c hc

theorem pyStrip_idem (l : PyStr) : pyStrip (pyStrip l) = pyStrip l := by
  have h1 := dropWhile_pyStrip l
  show List.rdropWhile isSpaceB ((pyStrip l).dropWhile isSpaceB) = pyStrip l
  rw [h1]
  unfold pyStrip
  exact List.rdropWhile_idempotent _ _

theorem pyStrip_eq_self (u : PyStr)
    (hhead : ∀ c, u.head? = some c → isSpaceB c = false)
    (hlast : ∀ c, u.getLast? = some c → isSpaceB c = false) :
    pyStrip u = u := by
  unfold pyStrip
  rw [dropWhile_fix_of_head _ _ hhead]
  rw [List.rdropWhile_eq_self_iff]
  intro hne
  have h := hlast (u.getLast hne) (List.getLast?_eq_getLast u hne)
  simp [h]

theorem mem_of_mem_pyStrip (c : Nat) (l : PyStr) (h : c ∈ pyStrip l) : c ∈ l := by
  unfold pyStrip at h
  obtain ⟨t, ht⟩ := List.rdropWhile_prefix isSpaceB
    (l.dropWhile isSpaceB)
  have h2 : c ∈ l.dropWhile isSpaceB := by
    rw [← ht]
    exact List.mem_append_left t h
  exact (List.dropWhile_sublist isSpaceB).subset h2

theorem map_pyLower_fix (u : PyStr) (h : ∀ c ∈ u, pyLower c = c) :
    u.map pyLower = u := by
  induction u with
  | nil => rfl
  | cons a t ih =>
    rw [List.map_cons, h a (List.mem_cons_self a t),
      ih (fun c hc => h c (List.mem_cons_of_mem a hc))]

theorem head?_dropLast (l : PyStr) (h : 2 ≤ l.length) :
    l.dropLast.head? = l.head? := by
  cases l with
  | nil => simp at h
  | cons x t =>
    cases t with
    | nil => simp at h
    | cons y r => simp

theorem head_not_space_of_strip (l : PyStr) :
    ∀ c, (pyStrip l).head? = some c → isSpaceB c = false := by
  intro c hc
  have h1 := dropWhile_pyStrip l
  rw [← h1] at hc
  exact head?_dropWhile_false isSpaceB (pyStrip l) c hc

theorem getLast?_of_suffix (s l : PyStr) (h : s <:+ l) (hs : s ≠ []) :
    l.getLast? = s.getLast? := by
  obtain ⟨w, hw⟩ := h
  rw [← hw]
  exact List.getLast?_append_of_ne_nil w hs

theorem normalize_fix_core (u : PyStr) (hmap : u.map pyLower = u)
    (hstrip : pyStrip u = u)
    (hp : (str "proteins").isSuffixOf u = false)
    (hg : (str "genomes").isSuffixOf u = false) :
    normalize_term u = u := by
  unfold normalize_term
  rw [hmap, hstrip, hp, hg]
  simp

theorem suffix_false_of_getLast (s u : PyStr) (c c' : Nat)
    (hu : u.getLast? = some c) (hsl : s.getLast? = some c') (hne : c ≠ c') :
    s.isSuffixOf u = false := by
  cases hb : s.isSuffixOf u with
  | false => rfl
  | true =>
    exfalso
    have hsuf := List.isSuffixOf_iff_suffix.mp hb
    have hs : s ≠ [] := by
      intro h
      rw [h] at hsl
      simp at hsl
    have := getLast?_of_suffix s u hsuf hs
    rw [hu, hsl] at this
    simp only [Option.some.injEq] at this
    exact hne this

/-- The two dropLast branches of normalize_term: the truncated string stays
fixed under lowering and stripping and ends in the stated code point. -/
theorem normalize_dropLast_fix (s suf : PyStr) (c : Nat)
    (hp : suf.isSuffixOf (pyStrip (s.map pyLower)) = true)
    (hlen : 2 ≤ suf.length)
    (hlast : suf.dropLast.getLast? = some c)
    (hcspace : isSpaceB c = false) :
    ((pyStrip (s.map pyLower)).dropLast.map pyLower =
        (pyStrip (s.map pyLower)).dropLast ∧
      pyStrip ((pyStrip (s.map pyLower)).dropLast) =
        (pyStrip (s.map pyLower)).dropLast) ∧
      (pyStrip (s.map pyLower)).dropLast.getLast? = some c := by
  have hmem_fix : ∀ d ∈ pyStrip (s.map pyLower), pyLower d = d := by
    intro d hd
    have h1 : d ∈ s.map pyLower := mem_of_mem_pyStrip d _ hd
    obtain ⟨a, _, rfl⟩ := List.mem_map.mp h1
    exact pyLower_pyLower a
  have hsuf := List.isSuffixOf_iff_suffix.mp hp
  obtain ⟨w, hw⟩ := hsuf
  have hslen : 2 ≤ (pyStrip (s.map pyLower)).length := by
    rw [← hw, List.length_append]
    omega
  have hsufne : suf ≠ [] := by
    intro h
    rw [h] at hlen
    simp at hlen
  have hdrop : (pyStrip (s.map pyLower)).dropLast = w ++ suf.dropLast := by
    rw [← hw, List.dropLast_append_of_ne_nil _ hsufne]
  have hdlne : suf.dropLast ≠ [] := by
    intro h
    rw [h] at hlast
    simp at hlast
  have hulast : (pyStrip (s.map pyLower)).dropLast.getLast? = some c := by
    rw [hdrop, List.getLast?_append_of_ne_nil _ hdlne, hlast]
  refine ⟨⟨?_, ?_⟩, hulast⟩
  · apply map_pyLower_fix
    intro d hd
    exact hmem_fix d ((List.dropLast_sublist _).subset hd)
  · apply pyStrip_eq_self
    · intro d hd
      rw [head?_dropLast _ hslen] at hd
      exact head_not_space_of_strip (s.map pyLower) d hd
    · intro d hd
      rw [hulast] at hd
      simp only [Option.some.injEq] at hd
      rw [← hd]
      exact hcspace

-- ---------------------------------------------------------
-- Claim C7
-- ---------------------------------------------------------

/-- C7: the term normalization function is idempotent: for every input string
s, normalize_term (normalize_term s) = normalize_term s. -/
theorem C7_normalize_idempotent (s : PyStr) :
    normalize_term (normalize_term s) = normalize_term s := by
  have hmem_fix : ∀ c ∈ pyStrip (s.map pyLower), pyLower c = c := by
    intro c hc
    obtain ⟨a, _, rfl⟩ := List.mem_map.mp (mem_of_mem_pyStrip c _ hc)
    exact pyLower_pyLower a
  have htmap : (pyStrip (s.map pyLower)).map pyLower = pyStrip (s.map pyLower) :=
    map_pyLower_fix _ hmem_fix
  have htstrip : pyStrip (pyStrip (s.map pyLower)) = pyStrip (s.map pyLower) :=
    pyStrip_idem _
  by_cases hp : (str "proteins").isSuffixOf (pyStrip (s.map pyLower)) = true
  · have hts : normalize_term s = (pyStrip (s.map pyLower)).dropLast := by
      unfold normalize_term
      rw [if_pos hp]
    obtain ⟨⟨humap, hustrip⟩, hulast⟩ :=
      normalize_dropLast_fix s (str "proteins") 110 hp (by decide) (by decide)
        (by decide)
    rw [hts]
    exact normalize_fix_core _ humap hustrip
      (suffix_false_of_getLast _ _ 110 115 hulast (by decide) (by decide))
      (suffix_false_of_getLast _ _ 110 115 hulast (by decide) (by decide))
  · by_cases hg : (str "genomes").isSuffixOf (pyStrip (s.map pyLower)) = true
    · have hts : normalize_term s = (pyStrip (s.map pyLower)).dropLast := by
        unfold normalize_term
        rw [if_neg hp, if_pos hg]
      obtain ⟨⟨humap, hustrip⟩, hulast⟩ :=
        normalize_dropLast_fix s (str "genomes") 101 hg (by decide) (by decide)
          (by decide)
      rw [hts]
      exact normalize_fix_core _ humap hustrip
        (suffix_false_of_getLast _ _ 101 115 hulast (by decide) (by decide))
        (suffix_false_of_getLast _ _ 101 115 hulast (by decide) (by decide))
    · have hts : normalize_term s = pyStrip (s.map pyLower) := by
        unfold normalize_term
        rw [if_neg hp, if_neg hg]
      simp only [Bool.not_eq_true] at hp hg
      rw [hts]
      exact normalize_fix_core _ htmap htstrip hp hg

-- ---------------------------------------------------------
-- Claim C10
-- ---------------------------------------------------------

set_option maxHeartbeats 1000000 in
/-- C10: every string of uppercase letters of length at least 3 (an acronym
such as PCR) fails the single-word candidate test, so all-uppercase acronyms
are never submitted for ontology lookup. -/
theorem C10_acronyms_never_candidates (l : PyStr)
    (hall : ∀ c ∈ l, isUpperB c = true) (hlen : 3 ≤ l.length) :
    is_candidate_single_word l = false := by
  have hne : l ≠ [] := by
    intro h
    rw [h] at hlen
    simp at hlen
  have hfilter : l.filter isWordCharB = l :=
    List.filter_eq_self.mpr (fun c hc => by
      simp [isWordCharB, isAlphaB, hall c hc])
  have hempty : l.isEmpty = false := by
    cases l with
    | nil => exact absurd rfl hne
    | cons a t => rfl
  have hacr : is_acronym l = true := by
    unfold is_acronym pyIsUpper
    have h1 : l.any isCasedB = true := by
      cases l with
      | nil => exact absurd rfl hne
      | cons a t =>
        have ha := hall a (List.mem_cons_self a t)
        simp [List.any_cons, isCasedB, ha]
    have h2 : l.all (fun c => !isCasedB c || isUpperB c) = true := by
      rw [List.all_eq_true]
      intro c hc
      simp [hall c hc]
    rw [h1, h2]
    simp [hlen]
  unfold is_candidate_single_word
  rw [hfilter, hempty]
  rw [if_neg (by decide : ¬(false = true))]
  dsimp only []
  rw [hempty]
  rw [if_neg (by decide : ¬(false = true))]
  rw [if_neg (by omega : ¬l.length < 3)]
  split
  · rfl
  split
  · rfl
  split
  · rfl
  split
  · rfl
  rfl

/-- Witness for C10 at the concrete acronym PCR. -/
theorem C10_acronyms_never_candidates_witness :
    (∀ c ∈ str "PCR", isUpperB c = true) ∧ 3 ≤ (str "PCR").length ∧
      is_candidate_single_word (str "PCR") = false :=
  ⟨by decide, by decide,
    C10_acronyms_never_candidates (str "PCR") (by decide) (by decide)⟩

-- ---------------------------------------------------------
-- Claim C4
-- ---------------------------------------------------------

/-- C4: refuted at the failing input "Mycoplasma".  The token is a capitalized
word of length at least 3, is not a digit string and is not a common word, so
the claim says it passes the single-token acceptance test; but the word-level
classifier applies the author-surname rejection first and returns false.  This
also makes the later capitalized-word acceptance branch unreachable for every
such token. -/
theorem C4_capitalized_word_rejected :
    is_candidate_single_word (str "Mycoplasma") = false ∧
      capWordB (str "Mycoplasma") = true ∧
      3 ≤ (str "Mycoplasma").length ∧
      pyIsDigit (str "Mycoplasma") = false ∧
      COMMON_WORDS.contains ((str "Mycoplasma").map pyLower) = false ∧
      looks_like_author_name (str "Mycoplasma") = true := by
  decide

-- ---------------------------------------------------------
-- Claim C8
-- ---------------------------------------------------------

/-- C8: in the single left-to-right pass of the span merger, whenever the
current span's text ends with a hyphen and another span immediately follows,
the pass emits one span whose text is the first text with trailing hyphens
stripped concatenated with the second text (all other fields taken from the
first span), drops the second span, and continues after the pair. -/
theorem C8_hyphen_merge_rule (a b : Span) (rest : List Span)
    (h : (str "-").isSuffixOf a.text = true) :
    merge_hyphens (a :: b :: rest) = mergedSpan a b :: merge_hyphens rest := by
  simp only [merge_hyphens]
  rw [if_pos h]

/-- Witness for C8: the consecutive tokens myco- and plasma merge to a single
span with text mycoplasma (Scenario 1 of the specification). -/
theorem C8_hyphen_merge_rule_witness :
    (str "-").isSuffixOf (str "myco-") = true ∧
      merge_hyphens
          [⟨str "myco-", 10, 20, 30, 12, 1⟩, ⟨str "plasma", 12, 21, 28, 12, 1⟩] =
        [⟨str "mycoplasma", 10, 20, 30, 12, 1⟩] := by
  refine ⟨by decide, ?_⟩
  rw [C8_hyphen_merge_rule ⟨str "myco-", 10, 20, 30, 12, 1⟩
    ⟨str "plasma", 12, 21, 28, 12, 1⟩ [] (by decide)]
  decide

-- ---------------------------------------------------------
-- Claim C9
-- ---------------------------------------------------------

/-- C9: the phrase-level classifier accepts the phrase text Escherichia coli,
which moreover matches the two-word species pattern, and rejects the phrase
text The coli. -/
theorem C9_species_detection :
    is_candidate_phrase_full (str "Escherichia coli") = true ∧
      is_species_like (words_from_phrase_text (str "Escherichia coli")) = true ∧
      is_candidate_phrase_full (str "The coli") = false := by
  decide

-- ---------------------------------------------------------
-- Claim C1
-- ---------------------------------------------------------

/-- A fetch oracle for C1: the external service resolves the single term
biofilm with one document and returns an empty docs list for everything
else. -/
def fetchC1 : PyStr → Option (List OLSDoc) := fun t =>
  if t = str "biofilm" then
    some [⟨str "biofilm", [str "An aggregate of microorganisms."],
      some (str "iri-c1"), str "so"⟩]
  else some []

/-- The single page of the C1 scenario: one word span with text biofilm. -/
def pageC1 : PageData := ⟨[str "biofilm"], []⟩

/-- The biofilm word span as the attachment stage sees it: no definition and
no source key present. -/
def wordC1 : AttachSpan := ⟨str "biofilm", none, none⟩

/-- C1: refuted at the failing input biofilm.  The word resolves at the word
level in the orchestrator's result map (first conjunct), yet the attachment
stage leaves the span unmodified (second conjunct): the hits built by
extract_ontology_terms carry no source key, and the word loop of server.py
only writes a definition when the hit's source is word_definition or
ontology_word, so the resolved definition is never attached. -/
theorem C1_resolved_word_not_attached :
    ((extract_ontology_terms fetchC1 [pageC1]).lookup
        (pyStrip (str "biofilm"))).isSome = true ∧
      attach_words (extract_ontology_terms fetchC1 [pageC1]) [wordC1] =
        [wordC1] := by
  decide

-- ---------------------------------------------------------
-- Claim C2
-- ---------------------------------------------------------

/-- A fetch oracle for C2: the external service resolves the single term
mastitis with one document from an ontology outside the allow-list. -/
def fetchC2 : PyStr → Option (List OLSDoc) := fun t =>
  if t = str "mastitis" then
    some [⟨str "mastitis", [str "Inflammation of the mammary gland."],
      some (str "iri-c2"), str "zz"⟩]
  else some []

/-- The single page of the C2 scenario: one word span with text mastitis. -/
def pageC2 : PageData := ⟨[str "mastitis"], []⟩

/-- C2: evaluation of the orchestrator at the failing input mastitis.  The
returned resolution is verbatim the external document's content (label,
stripped first description, iri) with no source key: extract_ontology_terms
passes every candidate key straight to lookup_term_ols4, which queries the
external service; no internal phrase table, word table or persistent cache is
consulted anywhere (the function takes no such input). -/
theorem C2_every_candidate_goes_external :
    extract_ontology_terms fetchC2 [pageC2] =
      [(str "mastitis",
        ⟨str "mastitis", str "Inflammation of the mammary gland.",
          some (str "iri-c2"), none⟩)] := by
  decide

-- ---------------------------------------------------------
-- Claim C3
-- ---------------------------------------------------------

/-- A fetch oracle for C3: the external service has no documents for the
phrase lipoprotein complex but resolves the word lipoprotein. -/
def fetchC3 : PyStr → Option (List OLSDoc) := fun t =>
  if t = str "lipoprotein" then
    some [⟨str "lipoprotein", [str "A lipid-protein complex."],
      some (str "iri-c3"), str "chebi"⟩]
  else some []

/-- The single page of the C3 scenario: one phrase span with text lipoprotein
complex and no word spans. -/
def pageC3 : PageData := ⟨[], [str "lipoprotein complex"]⟩

/-- C3 counterexample: the multi-word phrase key lipoprotein complex is the
only candidate and stays unmatched (the result map is empty), even though its
constituent word lipoprotein would resolve if it were queried (second
conjunct).  No constituent single words are generated or re-queued for the
unmatched phrase, contradicting the claimed fallback split. -/
theorem C3_counterexample_no_fallback :
    extract_ontology_terms fetchC3 [pageC3] = [] ∧
      capped_candidates [pageC3] = [str "lipoprotein complex"] ∧
      (lookup_term_ols4 fetchC3 (str "lipoprotein")).isSome = true := by
  decide

/-- C3 amended: the resolved keys of the orchestrator are exactly the
candidate keys collected up front from the spans that the external lookup
resolves; an unmatched multi-word phrase key is simply dropped, and
constituent words enter the chain only when they are candidates of the input
pages themselves. -/
theorem C3_amended_keys_are_upfront_candidates
    (fetch : PyStr → Option (List OLSDoc)) (ps : List PageData) :
    (extract_ontology_terms fetch ps).map Prod.fst =
      (capped_candidates ps).filter
        (fun t => (lookup_term_ols4 fetch t).isSome) := by
  unfold extract_ontology_terms
  induction capped_candidates ps with
  | nil => rfl
  | cons x xs ih =>
    cases hx : lookup_term_ols4 fetch x with
    | none => simp [List.filterMap_cons, List.filter_cons, hx, ih]
    | some h => simp [List.filterMap_cons, List.filter_cons, hx, ih]

-- ---------------------------------------------------------
-- Claim C6
-- ---------------------------------------------------------

/-- First response document of the C6 scenario: exact label match, ontology
not in the allow-list. -/
def docC6a : OLSDoc := ⟨str "Cell", [str "alpha."], some (str "iri-a"), str "zz"⟩

/-- Second response document of the C6 scenario: exact label match, ontology
in the allow-list, label not longer. -/
def docC6b : OLSDoc := ⟨str "cell", [str "beta."], some (str "iri-b"), str "go"⟩

/-- The fetch oracle of the C6 scenario: both documents, in this order. -/
def fetchC6 : PyStr → Option (List OLSDoc) := fun _ => some [docC6a, docC6b]

/-- C6 counterexample: both documents are exact case-insensitive label matches
for the term cell, the second is from an allow-listed ontology while the first
is not, and its label is not longer; the claim's tie-break would select the
second document, but the code returns the first document in response order. -/
theorem C6_counterexample_exact_tie :
    lookup_term_ols4 fetchC6 (str "cell") =
        some ⟨str "Cell", str "alpha.", some (str "iri-a"), none⟩ ∧
      exactMatchB ((normalize_term (str "cell")).map pyLower) docC6a = true ∧
      exactMatchB ((normalize_term (str "cell")).map pyLower) docC6b = true ∧
      isBioDoc docC6b = true ∧
      isBioDoc docC6a = false ∧
      docC6b.label.length ≤ docC6a.label.length := by
  decide

theorem keyLe_refl (p : Nat × Nat) : keyLe p p = true := by
  simp [keyLe]

theorem keyLe_trans (p q r : Nat × Nat) (h1 : keyLe p q = true)
    (h2 : keyLe q r = true) : keyLe p r = true := by
  simp only [keyLe, decide_eq_true_eq] at h1 h2 ⊢
  omega

theorem keyLe_total (p q : Nat × Nat) (h : keyLe p q = false) :
    keyLe q p = true := by
  simp only [keyLe, decide_eq_false_iff_not, decide_eq_true_eq] at h ⊢
  omega

/-- The selection made from a sorted stage list: the chosen document belongs
to the list and its sort key is minimal there (ties resolved towards the
earlier document, as Python's stable sort does). -/
theorem bestOf_spec (l : List OLSDoc) (d : OLSDoc) (h : bestOf l = some d) :
    d ∈ l ∧ ∀ e ∈ l, keyLe (docKey d) (docKey e) = true := by
  induction l generalizing d with
  | nil => cases h
  | cons a as ih =>
    cases hb : bestOf as with
    | none =>
      cases as with
      | nil =>
        simp only [bestOf] at h
        injection h with h
        subst h
        refine ⟨List.mem_cons_self a [], ?_⟩
        intro e he
        rcases List.mem_cons.mp he with rfl | he'
        · exact keyLe_refl _
        · cases he'
      | cons y ys =>
        cases hby : bestOf ys <;> simp [bestOf, hby] at hb
    | some b =>
      have hspec := ih b hb
      simp only [bestOf, hb] at h
      by_cases hk : keyLe (docKey a) (docKey b) = true
      · rw [if_pos hk] at h
        injection h with h
        subst h
        refine ⟨List.mem_cons_self a as, ?_⟩
        intro e he
        rcases List.mem_cons.mp he with rfl | he'
        · exact keyLe_refl _
        · exact keyLe_trans _ _ _ hk (hspec.2 e he')
      · rw [if_neg hk] at h
        injection h with h
        subst h
        refine ⟨List.mem_cons_of_mem a hspec.1, ?_⟩
        intro e he
        rcases List.mem_cons.mp he with rfl | he'
        · exact keyLe_total _ _ (Bool.eq_false_iff.mpr hk)
        · exact hspec.2 e he'

/-- C6 amended: the three match levels keep their precedence and the
allow-list-then-shorter-label tie-break governs the starts-with and contains
stages, but among exact case-insensitive label matches the first document in
response order (with a truthy definition) wins, with no allow-list or
label-length preference.  First conjunct: when the response contains an exact
match, the result is the first such document.  Second conjunct: the best-of
selection used by the other two stages returns a member with minimal
(allow-list, label length) key. -/
theorem C6_amended_ranking :
    (∀ (fetch : PyStr → Option (List OLSDoc)) (term : PyStr)
        (docs : List OLSDoc) (d : OLSDoc),
        fetch (normalize_term term) = some docs →
        docs.find? (exactMatchB ((normalize_term term).map pyLower)) = some d →
        lookup_term_ols4 fetch term = some (mkHit d))
    ∧ (∀ (l : List OLSDoc) (d : OLSDoc), bestOf l = some d →
        d ∈ l ∧ ∀ e ∈ l, keyLe (docKey d) (docKey e) = true) := by
  constructor
  · intro fetch term docs d hf hfind
    unfold lookup_term_ols4
    rw [hf]
    dsimp only []
    have hne : docs.isEmpty = false := by
      cases docs with
      | nil => simp at hfind
      | cons a as => rfl
    rw [hne]
    rw [if_neg (by decide : ¬(false = true))]
    unfold lookupStages
    rw [hfind]
  · exact bestOf_spec

/-- The single document of the C6 amended witness scenario. -/
def docC6w : OLSDoc :=
  ⟨str "bacteria", [str "Unicellular prokaryotes."], none, str "go"⟩

/-- The fetch oracle of the C6 amended witness scenario. -/
def fetchC6w : PyStr → Option (List OLSDoc) := fun _ => some [docC6w]

/-- Witness for the amended C6 ranking at a concrete one-document response. -/
theorem C6_amended_ranking_witness :
    lookup_term_ols4 fetchC6w (str "bacteria") = some (mkHit docC6w) ∧
      (docC6w ∈ [docC6w] ∧
        ∀ e ∈ [docC6w], keyLe (docKey docC6w) (docKey e) = true) :=
  ⟨C6_amended_ranking.1 fetchC6w (str "bacteria") [docC6w] docC6w rfl
      (by decide),
    C6_amended_ranking.2 [docC6w] docC6w (by decide)⟩

-- ---------------------------------------------------------
-- Claim C5
-- ---------------------------------------------------------

theorem stage3of_def_nonempty (docs : List OLSDoc) (tl : PyStr) (h : Hit)
    (hh : stage3of docs tl = some h) : ¬h.definition = [] := by
  unfold stage3of at hh
  cases hb : bestOf (docs.filter (containsTermB tl)) with
  | none => rw [hb] at hh; cases hh
  | some b =>
    rw [hb] at hh
    dsimp only [] at hh
    by_cases he : (docDef b).isEmpty = true
    · rw [if_pos he] at hh; cases hh
    · rw [if_neg he] at hh
      injection hh with hh
      subst hh
      intro hcon
      apply he
      show (docDef b).isEmpty = true
      rw [show docDef b = (mkHit b).definition from rfl, hcon]
      rfl

theorem lookupStages_def_nonempty (docs : List OLSDoc) (tl : PyStr) (h : Hit)
    (hh : lookupStages docs tl = some h) : ¬h.definition = [] := by
  unfold lookupStages at hh
  cases hfind : docs.find? (exactMatchB tl) with
  | some d =>
    rw [hfind] at hh
    injection hh with hh
    subst hh
    have hex := List.find?_some hfind
    simp only [exactMatchB, Bool.and_eq_true, Bool.not_eq_true'] at hex
    intro hcon
    have : (docDef d).isEmpty = true := by
      rw [show docDef d = (mkHit d).definition from rfl, hcon]
      rfl
    rw [hex.2] at this
    cases this
  | none =>
    rw [hfind] at hh
    cases hb : bestOf (docs.filter (startsWithTermB tl)) with
    | none =>
      rw [hb] at hh
      exact stage3of_def_nonempty docs tl h hh
    | some b =>
      rw [hb] at hh
      dsimp only [] at hh
      by_cases he : (docDef b).isEmpty = true
      · rw [if_pos he] at hh
        exact stage3of_def_nonempty docs tl h hh
      · rw [if_neg he] at hh
        injection hh with hh
        subst hh
        intro hcon
        apply he
        show (docDef b).isEmpty = true
        rw [show docDef b = (mkHit b).definition from rfl, hcon]
        rfl

theorem lookup_some_def_nonempty (fetch : PyStr → Option (List OLSDoc))
    (t : PyStr) (h : Hit) (hh : lookup_term_ols4 fetch t = some h) :
    ¬h.definition = [] := by
  unfold lookup_term_ols4 at hh
  cases hf : fetch (normalize_term t) with
  | none => rw [hf] at hh; cases hh
  | some docs =>
    rw [hf] at hh
    dsimp only [] at hh
    by_cases hi : docs.isEmpty = true
    · rw [if_pos hi] at hh; cases hh
    · rw [if_neg hi] at hh
      exact lookupStages_def_nonempty docs _ h hh

theorem extract_lookup_none (fetch : PyStr → Option (List OLSDoc)) (t : PyStr)
    (l : List PyStr) (hnone : lookup_term_ols4 fetch t = none) :
    (l.filterMap
        (fun u => (lookup_term_ols4 fetch u).map (fun h => (u, h)))).lookup t =
      none := by
  induction l with
  | nil => rfl
  | cons x xs ih =>
    cases hx : lookup_term_ols4 fetch x with
    | none => simp [List.filterMap_cons, hx, ih]
    | some h =>
      have hne : (t == x) = false := by
        rw [beq_eq_false_iff_ne]
        intro he
        rw [he, hx] at hnone
        cases hnone
      simp [List.filterMap_cons, hx, List.lookup, hne, ih]

theorem extract_mem_resolves (fetch : PyStr → Option (List OLSDoc))
    (ps : List PageData) (q : PyStr) (h : Hit)
    (hmem : (q, h) ∈ extract_ontology_terms fetch ps) :
    lookup_term_ols4 fetch q = some h := by
  unfold extract_ontology_terms at hmem
  obtain ⟨u, _, heq⟩ := List.mem_filterMap.mp hmem
  cases hx : lookup_term_ols4 fetch u with
  | none => rw [hx] at heq; cases heq
  | some hh =>
    rw [hx] at heq
    simp only [Option.map_some', Option.some.injEq, Prod.mk.injEq] at heq
    rw [← heq.1, ← heq.2]
    exact hx

/-- C5: an external lookup that errors or returns no documents leaves the
orchestrator's persisted result map without any entry for that key (no
negative entry is ever written), and every entry that is persisted is a
positive result with a non-empty definition. -/
theorem C5_no_negative_caching (fetch : PyStr → Option (List OLSDoc))
    (ps : List PageData) (t : PyStr) :
    ((fetch (normalize_term t) = none ∨ fetch (normalize_term t) = some []) →
        (extract_ontology_terms fetch ps).lookup t = none)
    ∧ (∀ (q : PyStr) (h : Hit), (q, h) ∈ extract_ontology_terms fetch ps →
        ¬h.definition = []) := by
  constructor
  · intro hbad
    have hnone : lookup_term_ols4 fetch t = none := by
      unfold lookup_term_ols4
      rcases hbad with hb | hb
      · rw [hb]
      · rw [hb]
        rfl
    unfold extract_ontology_terms
    exact extract_lookup_none fetch t _ hnone
  · intro q h hmem
    exact lookup_some_def_nonempty fetch q h
      (extract_mem_resolves fetch ps q h hmem)

/-- A fetch oracle that always answers with an empty docs list. -/
def fetchC5none : PyStr → Option (List OLSDoc) := fun _ => some []

/-- The single page of the C5 scenario: one word span with text larvae. -/
def pageC5 : PageData := ⟨[str "larvae"], []⟩

/-- The document resolving larvae in the C5 witness scenario. -/
def docC5 : OLSDoc := ⟨str "larvae", [str "An immature form."], none, str "go"⟩

/-- A fetch oracle resolving every query with the larvae document. -/
def fetchC5hit : PyStr → Option (List OLSDoc) := fun _ => some [docC5]

/-- The hit stored for larvae in the C5 witness scenario. -/
def hitC5 : Hit := ⟨str "larvae", str "An immature form.", none, none⟩

/-- Witness for C5: with a no-documents oracle the key larvae gets no entry,
and a stored hit has a non-empty definition. -/
theorem C5_no_negative_caching_witness :
    (extract_ontology_terms fetchC5none [pageC5]).lookup (str "larvae") =
        none ∧
      ¬hitC5.definition = [] :=
  ⟨(C5_no_negative_caching fetchC5none [pageC5] (str "larvae")).1 (Or.inr rfl),
    (C5_no_negative_caching fetchC5hit [pageC5] (str "larvae")).2 (str "larvae")
      hitC5 (by decide)⟩

